import Mathlib

/-!
Verification of the Pickleball Scheduler core against its specification.

The definitions below are a shallow embedding of the TypeScript source:

* `ChallengeModal.tsx` (helper functions `calculateEndTime`, `timeToMinutes`,
  `hasConflict`, `isInQuietHours`, `handleSubmit`),
* `FindOpponents.tsx` (`calculateOverlap`, `opponentsWithOverlap`),
* `AvailabilityEditor.tsx` (`getEndTime`),
* `usePickleballStore.ts` (data model and the store operations
  `addAvailability`, `deleteRecurringPattern`, `createChallenge`,
  `respondToChallenge`, `cancelMatch`).

Times of day appear in the source as zero-padded "HH:MM" strings; the string
comparison operators the source applies to them (lexicographic on fixed-width
zero-padded fields) agree with the numeric order of `hours * 60 + minutes`, so
the embedding represents such a string by its hour/minute pair `HM` and
compares via `timeToMinutes`.  The stored `endHours` may exceed 23 (the source
produces e.g. "25:00") and remains two digits for all inputs that occur, so the
correspondence is exact.
-/

namespace Pickleball

/-- An "HH:MM" time-of-day string, represented by its numeral fields.  The
source never normalises hours modulo 24, so `h` may exceed 23. -/
structure HM where
  h : Nat
  m : Nat
deriving DecidableEq, Repr

/-- Embeds `timeToMinutes` (ChallengeModal.tsx / FindOpponents.tsx): parse the
two fields and return `hours * 60 + minutes`. -/
def timeToMinutes (t : HM) : Nat := t.h * 60 + t.m

/-- Embeds `minutesToTime` (FindOpponents.tsx): `hours = floor(m/60)`,
`mins = m % 60`, rendered zero-padded. -/
def minutesToTime (n : Nat) : HM := ⟨n / 60, n % 60⟩

/-- Embeds `calculateEndTime` (ChallengeModal.tsx): total minutes of the start
plus the duration, split back into hour and minute fields with no wrap at
midnight. -/
def calculateEndTime (t : HM) (duration : Nat) : HM :=
  minutesToTime (timeToMinutes t + duration)

/-- Embeds JavaScript `n.toString().padStart(2, '0')` for the two numeral
fields of an "HH:MM" string. -/
def pad2 (n : Nat) : String := if n < 10 then "0" ++ Nat.repr n else Nat.repr n

/-- Renders an `HM` value the way the source renders end times:
`HH.padStart(2,'0') ++ ":" ++ MM.padStart(2,'0')`. -/
def formatHM (t : HM) : String := pad2 t.h ++ ":" ++ pad2 t.m

/-- Embeds the branch structure of `isInQuietHours` (ChallengeModal.tsx) once
the three guarded fields are present, over minutes-since-midnight values. -/
def isInQuietHoursAt (s quietStart quietEnd : Nat) : Bool :=
  if quietStart > quietEnd then
    decide (s ≥ quietStart) || decide (s < quietEnd)
  else
    decide (s ≥ quietStart) && decide (s < quietEnd)

/-- Embeds `isInQuietHours` (ChallengeModal.tsx): the source first returns
`false` when the form's start time or either quiet-hours field is absent or
empty (falsy), then compares minutes-since-midnight values. -/
def isInQuietHours (startTime quietHoursStart quietHoursEnd : Option HM) : Bool :=
  match startTime, quietHoursStart, quietHoursEnd with
  | some t, some qs, some qe =>
      isInQuietHoursAt (timeToMinutes t) (timeToMinutes qs) (timeToMinutes qe)
  | _, _, _ => false

/-- Match status (usePickleballStore.ts `Match.status`). -/
inductive MatchStatus where
  | pending
  | confirmed
  | declined
  | canceled
  | expired
deriving DecidableEq, Repr

/-- The store's `Match` entity (usePickleballStore.ts). -/
structure Match where
  id : String
  challengerId : String
  opponentId : String
  date : String
  startTime : HM
  duration : Nat
  status : MatchStatus
  createdAt : String
  cancelReason : Option String := none
  canceledBy : Option String := none
deriving DecidableEq, Repr

/-- The store's `AvailabilitySlot` entity (usePickleballStore.ts). -/
structure AvailabilitySlot where
  id : String
  userId : String
  date : String
  startTime : HM
  endTime : HM
  isRecurring : Bool
  isException : Option Bool := none
  recurringPatternId : Option String := none
deriving DecidableEq, Repr

/-- The store's `RecurringPattern` entity (usePickleballStore.ts). -/
structure RecurringPattern where
  id : String
  userId : String
  dayOfWeek : Nat
  startTime : HM
  endTime : HM
  enabled : Bool
  name : String
deriving DecidableEq, Repr

/-- User status (usePickleballStore.ts `User.status`). -/
inductive UserStatus where
  | active
  | vacation
  | inactive
deriving DecidableEq, Repr

/-- The store's `User` entity, restricted to the fields the claims touch
(usePickleballStore.ts). -/
structure User where
  id : String
  name : String
  status : UserStatus
  quietHoursStart : Option HM := none
  quietHoursEnd : Option HM := none
deriving DecidableEq, Repr

/-- The slice of the zustand store state the claims touch
(usePickleballStore.ts).  `currentUser` and `impersonatedUser` are kept as
their ids, the only field the embedded operations read. -/
structure StoreState where
  currentUserId : Option String := none
  impersonatedUserId : Option String := none
  users : List User := []
  availability : List AvailabilitySlot := []
  recurringPatterns : List RecurringPattern := []
  allMatches : List Match := []
deriving DecidableEq, Repr

/-- Embeds `addAvailability` (usePickleballStore.ts): append the given slots
to the availability list.  The source stamps each slot with a fresh id from
`Date.now()`/`Math.random()`; the embedding takes the slots with their ids
already assigned, which the claims never inspect. -/
def addAvailability (s : StoreState) (newSlots : List AvailabilitySlot) : StoreState :=
  { s with availability := s.availability ++ newSlots }

/-- Embeds `deleteRecurringPattern` (usePickleballStore.ts): drop the pattern
and every availability slot whose `recurringPatternId` equals the deleted id. -/
def deleteRecurringPattern (s : StoreState) (patternId : String) : StoreState :=
  { s with
    recurringPatterns := s.recurringPatterns.filter (fun p => p.id != patternId),
    availability := s.availability.filter (fun a => a.recurringPatternId != some patternId) }

/-- Embeds `createChallenge` (usePickleballStore.ts): append a new match with
status `pending`.  The source stamps `id` from `Date.now()` and `createdAt`
from `new Date()`; the embedding takes both as arguments. -/
def createChallenge (s : StoreState) (newId createdAt challengerId opponentId : String)
    (date : String) (startTime : HM) (duration : Nat) : StoreState :=
  { s with allMatches := s.allMatches ++
      [{ id := newId, challengerId := challengerId, opponentId := opponentId,
         date := date, startTime := startTime, duration := duration,
         status := .pending, createdAt := createdAt }] }

/-- Embeds `respondToChallenge` (usePickleballStore.ts): map over the matches,
setting the matching id's status to `confirmed` or `declined`. -/
def respondToChallenge (s : StoreState) (matchId : String) (accept : Bool) : StoreState :=
  { s with allMatches := s.allMatches.map (fun m =>
      if m.id == matchId then
        { m with status := if accept then .confirmed else .declined }
      else m) }

/-- Embeds the `impersonatedUser?.id || currentUser?.id` lookup in
`cancelMatch` (usePickleballStore.ts): user ids are non-empty strings, so the
JavaScript `||` falls through exactly when no user is impersonated. -/
def canceledByOf (s : StoreState) : Option String :=
  match s.impersonatedUserId with
  | some u => some u
  | none => s.currentUserId

/-- Embeds `cancelMatch` (usePickleballStore.ts): map over the matches,
setting the matching id's status to `canceled` and recording the reason and
the canceling user. -/
def cancelMatch (s : StoreState) (matchId : String) (reason : Option String) : StoreState :=
  { s with allMatches := s.allMatches.map (fun m =>
      if m.id == matchId then
        { m with status := .canceled, cancelReason := reason, canceledBy := canceledByOf s }
      else m) }

/-- Embeds `hasConflict` (ChallengeModal.tsx) at non-empty form fields (the
source returns `false` early when the date or start-time field is empty):
filter the matches to those of the active user on the same date whose status
is neither `declined` nor `canceled`, then test the three-way overlap
condition against the proposed window. -/
def hasConflict (activeUserId : String) (date : String) (startTime : HM) (duration : Nat)
    (ms : List Match) : Bool :=
  let endTime := calculateEndTime startTime duration
  let userMatches := ms.filter (fun m =>
    (m.challengerId == activeUserId || m.opponentId == activeUserId) &&
    !(m.status == .declined) && !(m.status == .canceled) && m.date == date)
  userMatches.any (fun m =>
    let matchEnd := calculateEndTime m.startTime m.duration
    (decide (timeToMinutes m.startTime ≤ timeToMinutes startTime) &&
       decide (timeToMinutes startTime < timeToMinutes matchEnd)) ||
    (decide (timeToMinutes m.startTime < timeToMinutes endTime) &&
       decide (timeToMinutes endTime ≤ timeToMinutes matchEnd)) ||
    (decide (timeToMinutes startTime ≤ timeToMinutes m.startTime) &&
       decide (timeToMinutes matchEnd ≤ timeToMinutes endTime)))

/-- Embeds `handleSubmit` (ChallengeModal.tsx): if `hasConflict` holds for the
active user the submission is rejected (the source alerts and returns without
creating anything, modelled as `none`); otherwise `createChallenge` runs. -/
def submitChallenge (s : StoreState) (newId createdAt activeUserId opponentId : String)
    (date : String) (startTime : HM) (duration : Nat) : Option StoreState :=
  if hasConflict activeUserId date startTime duration s.allMatches then none
  else some (createChallenge s newId createdAt activeUserId opponentId date startTime duration)

/-- Embeds `getEndTime` (AvailabilityEditor.tsx): add 30 minutes; if the
minutes field reaches 60, carry into the hour and reset minutes to zero. -/
def getEndTime (t : HM) : HM :=
  if t.m + 30 ≥ 60 then ⟨t.h + 1, 0⟩ else ⟨t.h, t.m + 30⟩

/-- A shared window pushed onto `sharedSlots` by `calculateOverlap`
(FindOpponents.tsx). -/
structure OverlapWindow where
  date : String
  startTime : HM
  endTime : HM
deriving DecidableEq, Repr

/-- Embeds one iteration of the nested `forEach` loops of `calculateOverlap`
(FindOpponents.tsx): on a shared date, take the later start and the earlier
end and keep the window when it is non-empty. -/
def overlapPair (s1 s2 : AvailabilitySlot) : Option OverlapWindow :=
  if s1.date == s2.date then
    let start1 := timeToMinutes s1.startTime
    let end1 := timeToMinutes s1.endTime
    let start2 := timeToMinutes s2.startTime
    let end2 := timeToMinutes s2.endTime
    let overlapStart := max start1 start2
    let overlapEnd := min end1 end2
    if overlapStart < overlapEnd then
      some { date := s1.date, startTime := minutesToTime overlapStart,
             endTime := minutesToTime overlapEnd }
    else none
  else none

/-- Embeds the `sharedSlots` accumulation of `calculateOverlap`
(FindOpponents.tsx): each user's slots are `availability` filtered by user id,
and the nested loops push one window per overlapping pair, in loop order. -/
def calculateOverlapSlots (userId1 userId2 : String)
    (availability : List AvailabilitySlot) : List OverlapWindow :=
  (availability.filter (fun s => s.userId == userId1)).flatMap (fun s1 =>
    (availability.filter (fun s => s.userId == userId2)).filterMap (fun s2 =>
      overlapPair s1 s2))

/-- The minute span of a pushed window.  The source accumulates
`overlapEnd - overlapStart` directly; since `timeToMinutes` inverts
`minutesToTime` exactly (`timeToMinutes_minutesToTime`), reading the span back
from the stored window is the same number. -/
def windowMinutes (w : OverlapWindow) : Nat :=
  timeToMinutes w.endTime - timeToMinutes w.startTime

/-- The `totalMinutes` accumulator of `calculateOverlap` (FindOpponents.tsx). -/
def calculateOverlapMinutes (userId1 userId2 : String)
    (availability : List AvailabilitySlot) : Nat :=
  ((calculateOverlapSlots userId1 userId2 availability).map windowMinutes).sum

/-- The `hours` result of `calculateOverlap` (FindOpponents.tsx):
`Math.floor(totalMinutes / 60)`. -/
def calculateOverlapHours (userId1 userId2 : String)
    (availability : List AvailabilitySlot) : Nat :=
  calculateOverlapMinutes userId1 userId2 availability / 60

/-- One entry of the `opponentsWithOverlap` list (FindOpponents.tsx). -/
structure OpponentOverlap where
  opponent : User
  overlapHours : Nat
  sharedSlots : List OverlapWindow
deriving DecidableEq, Repr

/-- Embeds `activeOpponents` (FindOpponents.tsx): every user other than the
active one whose status is `active`. -/
def activeOpponents (activeUserId : String) (users : List User) : List User :=
  users.filter (fun u => u.id != activeUserId && u.status == .active)

/-- Embeds the `.map` step of `opponentsWithOverlap` (FindOpponents.tsx).  The
source then filters by the search query and sorts by descending overlap hours;
both steps only drop or reorder whole entries and are independent of the
window contents, so they are omitted here. -/
def opponentsWithOverlap (activeUserId : String) (users : List User)
    (availability : List AvailabilitySlot) : List OpponentOverlap :=
  (activeOpponents activeUserId users).map (fun o =>
    { opponent := o,
      overlapHours := calculateOverlapHours activeUserId o.id availability,
      sharedSlots := calculateOverlapSlots activeUserId o.id availability })

/-- Follows the spec's words for the refinement claim about the Overlap
Engine: "intersect each user's block set by exact (start,end) equality", one
pair at a time on a shared date. -/
def exactPair (s1 s2 : AvailabilitySlot) : Option OverlapWindow :=
  if s1.date == s2.date && s1.startTime == s2.startTime && s1.endTime == s2.endTime then
    some { date := s1.date, startTime := s1.startTime, endTime := s1.endTime }
  else none

/-- Follows the spec's words for the refinement claim: plain set intersection
of the two users' block sets by exact (start,end) equality, traversed in the
same pair order as `calculateOverlapSlots`. -/
def exactIntersect (userId1 userId2 : String)
    (availability : List AvailabilitySlot) : List OverlapWindow :=
  (availability.filter (fun s => s.userId == userId1)).flatMap (fun s1 =>
    (availability.filter (fun s => s.userId == userId2)).filterMap (fun s2 =>
      exactPair s1 s2))

/-- A slot on the fixed 30-minute grid: well-formed minute fields, a start on
a multiple of 30 minutes, and a span of exactly one granularity unit. -/
def onGrid (s : AvailabilitySlot) : Prop :=
  s.startTime.m < 60 ∧ s.endTime.m < 60 ∧
  timeToMinutes s.startTime % 30 = 0 ∧
  timeToMinutes s.endTime = timeToMinutes s.startTime + 30

/-- Modelled from the spec: the backend match entity as seen by the
expiration sweep.  The sweep itself (`check_expiration` in the planned
`services/matches.py`, run every 5 minutes) is not under `src/` — only its
description in the repository's implementation plan is — so creation and
start instants are abstract minute counts and `now` is an explicit
parameter. -/
structure BackendMatch where
  id : String
  status : MatchStatus
  createdAt : Nat
  startAt : Nat
deriving DecidableEq, Repr

/-- Modelled from the spec: one step of the expiration sweep on a single
match.  A pending match becomes expired when 48 hours have elapsed since
creation, or the current time is within 2 hours of the start, or the current
time has passed the start; every other match is left untouched.  Instants are
in minutes. -/
def expireOne (now : Nat) (m : BackendMatch) : BackendMatch :=
  if m.status == .pending &&
      (decide (now ≥ m.createdAt + 48 * 60) ||
       decide (m.startAt ≤ now + 2 * 60) ||
       decide (now > m.startAt)) then
    { m with status := .expired }
  else m

/-- Modelled from the spec: the expiration sweep applies `expireOne`
independently to every match. -/
def checkExpiration (now : Nat) (ms : List BackendMatch) : List BackendMatch :=
  ms.map (expireOne now)

/-- Concrete data for the C1 counterexample: a pending match of the responder
"B" (challenger "B" against some third user "C") at 18:00–19:00. -/
def respOnlyMatch : Match :=
  { id := "m1", challengerId := "B", opponentId := "C", date := "2025-11-20",
    startTime := ⟨18, 0⟩, duration := 60, status := .pending, createdAt := "t0" }

/-- Concrete data for the C1 counterexample: an expired match of the
initiator "A" at 18:00–19:00. -/
def expiredMatch : Match :=
  { id := "m2", challengerId := "A", opponentId := "C", date := "2025-11-20",
    startTime := ⟨18, 0⟩, duration := 60, status := .expired, createdAt := "t0" }

/-- Concrete data for the C2 counterexample: a match already in the terminal
status `declined`. -/
def declinedMatch : Match :=
  { id := "m3", challengerId := "A", opponentId := "B", date := "2025-11-20",
    startTime := ⟨18, 0⟩, duration := 60, status := .declined, createdAt := "t0" }

/-- Concrete data for the C3 counterexample: users "1" (on vacation) and "2"
(active) share the 18:00–18:30 block on 2025-11-20. -/
def vacationUsers : List User :=
  [{ id := "1", name := "You", status := .vacation },
   { id := "2", name := "Alice", status := .active }]

/-- Concrete data for the C3 counterexample: one 18:00–18:30 block for each
of the two users on the same date. -/
def sharedAvailability : List AvailabilitySlot :=
  [{ id := "a1", userId := "1", date := "2025-11-20", startTime := ⟨18, 0⟩,
     endTime := ⟨18, 30⟩, isRecurring := false },
   { id := "a2", userId := "2", date := "2025-11-20", startTime := ⟨18, 0⟩,
     endTime := ⟨18, 30⟩, isRecurring := false }]

/-- Concrete data for the C3 counterexample: a pending match of user "1"
covering 18:00–19:00 on the shared date. -/
def coveringMatch : Match :=
  { id := "m4", challengerId := "1", opponentId := "3", date := "2025-11-20",
    startTime := ⟨18, 0⟩, duration := 60, status := .pending, createdAt := "t0" }

/-- Concrete data for the C6 counterexample: a generated block on 2020-01-01,
in the past of every execution date of this repository, carrying the
back-reference of pattern "rp1". -/
def pastBlock : AvailabilitySlot :=
  { id := "p1", userId := "1", date := "2020-01-01", startTime := ⟨8, 0⟩,
    endTime := ⟨8, 30⟩, isRecurring := true, recurringPatternId := some "rp1" }

/-- Concrete data for the C6 counterexample: the pattern `pastBlock` was
generated from. -/
def oldPattern : RecurringPattern :=
  { id := "rp1", userId := "1", dayOfWeek := 3, startTime := ⟨8, 0⟩,
    endTime := ⟨8, 30⟩, enabled := true, name := "old" }

/-- Concrete data for the C6 counterexample: a store holding only `pastBlock`
and the pattern it came from. -/
def pastStore : StoreState :=
  { availability := [pastBlock], recurringPatterns := [oldPattern] }

/-- Concrete data for the C7 counterexample: a stored 18:00–18:30 block of
user "1". -/
def dupSlot1 : AvailabilitySlot :=
  { id := "s1", userId := "1", date := "2025-11-20", startTime := ⟨18, 0⟩,
    endTime := ⟨18, 30⟩, isRecurring := false }

/-- Concrete data for the C7 counterexample: a second slot with the same
owner, date and start time, differing only in id. -/
def dupSlot2 : AvailabilitySlot :=
  { dupSlot1 with id := "s2" }

/-- Concrete data for the C8 counterexample: two off-grid blocks — user "1"
18:00–20:00 and user "2" 18:30–21:00 on the same date — mirroring the shapes
in the store's seed data. -/
def offGridAvailability : List AvailabilitySlot :=
  [{ id := "a1", userId := "1", date := "2025-11-20", startTime := ⟨18, 0⟩,
     endTime := ⟨20, 0⟩, isRecurring := true },
   { id := "a2", userId := "2", date := "2025-11-20", startTime := ⟨18, 30⟩,
     endTime := ⟨21, 0⟩, isRecurring := false }]

/-- A store holding only the terminal `declinedMatch`. -/
def declinedStore : StoreState := { allMatches := [declinedMatch] }

/-- A store holding only `dupSlot1`. -/
def dupStore : StoreState := { availability := [dupSlot1] }

/-- A store holding only the responder's pending match `respOnlyMatch`. -/
def respStore : StoreState := { allMatches := [respOnlyMatch] }

/-- A store holding only the initiator's `expiredMatch`. -/
def expStore : StoreState := { allMatches := [expiredMatch] }

/-- The single entry `opponentsWithOverlap` produces on the C3 data. -/
def aliceEntry : OpponentOverlap :=
  { opponent := { id := "2", name := "Alice", status := .active },
    overlapHours := 0,
    sharedSlots := [{ date := "2025-11-20", startTime := ⟨18, 0⟩, endTime := ⟨18, 30⟩ }] }

/-- Grid-aligned 30-minute blocks for the C8 refinement witness. -/
def gridAvailability : List AvailabilitySlot :=
  [{ id := "g1", userId := "1", date := "2025-11-20", startTime := ⟨18, 0⟩,
     endTime := ⟨18, 30⟩, isRecurring := false },
   { id := "g2", userId := "2", date := "2025-11-20", startTime := ⟨18, 0⟩,
     endTime := ⟨18, 30⟩, isRecurring := false },
   { id := "g3", userId := "2", date := "2025-11-20", startTime := ⟨18, 30⟩,
     endTime := ⟨19, 0⟩, isRecurring := false }]

instance : DecidablePred onGrid := fun s =>
  decidable_of_iff
    (s.startTime.m < 60 ∧ s.endTime.m < 60 ∧
      timeToMinutes s.startTime % 30 = 0 ∧
      timeToMinutes s.endTime = timeToMinutes s.startTime + 30)
    Iff.rfl

/-- Concrete data for the C4 witness: a pending backend match created at
minute 0 with start at minute 3100, checked at minute 3000. -/
def pendingBackendMatch : BackendMatch :=
  { id := "b1", status := .pending, createdAt := 0, startAt := 3100 }

/-- Concrete data for the C4 witness: an already-expired backend match. -/
def expiredBackendMatch : BackendMatch :=
  { id := "b2", status := .expired, createdAt := 0, startAt := 0 }

theorem timeToMinutes_minutesToTime (n : Nat) : timeToMinutes (minutesToTime n) = n := by
  simp only [timeToMinutes, minutesToTime]
  omega

theorem timeToMinutes_calculateEndTime (t : HM) (d : Nat) :
    timeToMinutes (calculateEndTime t d) = timeToMinutes t + d := by
  simp [calculateEndTime, timeToMinutes_minutesToTime]

/-- C5: the quiet-hours membership test treats the window as half-open
[start, end): for a non-wrapping window (start < end) it holds iff
start ≤ t < end, for a wrapping window (start > end) iff t ≥ start or t < end,
and the window's end point itself is always outside. -/
theorem isInQuietHours_spec (t qs qe : HM) :
    (timeToMinutes qs < timeToMinutes qe →
      (isInQuietHours (some t) (some qs) (some qe) = true ↔
        timeToMinutes qs ≤ timeToMinutes t ∧ timeToMinutes t < timeToMinutes qe)) ∧
    (timeToMinutes qe < timeToMinutes qs →
      (isInQuietHours (some t) (some qs) (some qe) = true ↔
        timeToMinutes qs ≤ timeToMinutes t ∨ timeToMinutes t < timeToMinutes qe)) ∧
    isInQuietHours (some qe) (some qs) (some qe) = false := by
  refine ⟨fun hlt => ?_, fun hgt => ?_, ?_⟩
  · simp only [isInQuietHours, isInQuietHoursAt]
    rw [if_neg (by omega)]
    simp only [Bool.and_eq_true, decide_eq_true_eq]
  · simp only [isInQuietHours, isInQuietHoursAt]
    rw [if_pos (by omega)]
    simp only [Bool.or_eq_true, decide_eq_true_eq]
  · by_cases h : timeToMinutes qs > timeToMinutes qe
    · simp only [isInQuietHours, isInQuietHoursAt]
      rw [if_pos h]
      simp only [Bool.or_eq_false_iff, decide_eq_false_iff_not]
      omega
    · simp only [isInQuietHours, isInQuietHoursAt]
      rw [if_neg h]
      simp only [Bool.and_eq_false_iff, decide_eq_false_iff_not, decide_eq_true_eq]
      omega

/-- Witness for C5 at a wrapping window 22:00–08:00, a non-wrapping window
09:00–17:00, and the end point itself. -/
theorem isInQuietHours_spec_witness :
    (isInQuietHours (some ⟨23, 30⟩) (some ⟨22, 0⟩) (some ⟨8, 0⟩) = true ↔
      timeToMinutes ⟨22, 0⟩ ≤ timeToMinutes ⟨23, 30⟩ ∨
        timeToMinutes ⟨23, 30⟩ < timeToMinutes ⟨8, 0⟩) ∧
    (isInQuietHours (some ⟨10, 0⟩) (some ⟨9, 0⟩) (some ⟨17, 0⟩) = true ↔
      timeToMinutes ⟨9, 0⟩ ≤ timeToMinutes ⟨10, 0⟩ ∧
        timeToMinutes ⟨10, 0⟩ < timeToMinutes ⟨17, 0⟩) ∧
    isInQuietHours (some ⟨8, 0⟩) (some ⟨22, 0⟩) (some ⟨8, 0⟩) = false :=
  ⟨(isInQuietHours_spec ⟨23, 30⟩ ⟨22, 0⟩ ⟨8, 0⟩).2.1 (by decide),
   (isInQuietHours_spec ⟨10, 0⟩ ⟨9, 0⟩ ⟨17, 0⟩).1 (by decide),
   (isInQuietHours_spec ⟨8, 0⟩ ⟨22, 0⟩ ⟨8, 0⟩).2.2⟩

/-- C9: `calculateEndTime` adds the duration in minutes —
`timeToMinutes (calculateEndTime t d) = timeToMinutes t + d` — and never wraps
at midnight: starting at 23:00 with a 120-minute duration yields the string
"25:00", not "01:00" of the next day. -/
theorem calculateEndTime_spec (t : HM) (d : Nat) :
    timeToMinutes (calculateEndTime t d) = timeToMinutes t + d ∧
    calculateEndTime ⟨23, 0⟩ 120 = ⟨25, 0⟩ ∧
    formatHM (calculateEndTime ⟨23, 0⟩ 120) = "25:00" ∧
    formatHM (calculateEndTime ⟨23, 0⟩ 120) ≠ "01:00" := by
  refine ⟨timeToMinutes_calculateEndTime t d, by decide, by decide, by decide⟩

/-- C4: a pending Match becomes expired exactly when 48 hours have elapsed
since creation, or the current time is within 2 hours of the start, or the
current time has passed the start; re-checking an already-expired Match is a
no-op; the sweep never sets any status other than `expired` and applies
independently to every match. -/
theorem checkExpiration_spec (now : Nat) (m : BackendMatch) (ms : List BackendMatch) :
    (m.status = .pending →
      ((expireOne now m).status = .expired ↔
        (m.createdAt + 48 * 60 ≤ now ∨ m.startAt ≤ now + 2 * 60 ∨ m.startAt < now))) ∧
    (m.status = .expired → expireOne now m = m) ∧
    ((expireOne now m).status = .expired ∨ expireOne now m = m) ∧
    expireOne now (expireOne now m) = expireOne now m ∧
    checkExpiration now ms = ms.map (expireOne now) := by
  have hchar : ∀ m' : BackendMatch, (expireOne now m').status = .expired ∨ expireOne now m' = m' := by
    intro m'
    unfold expireOne
    split
    · left; rfl
    · right; rfl
  have hexp : ∀ m' : BackendMatch, m'.status = .expired → expireOne now m' = m' := by
    intro m' h
    unfold expireOne
    rw [if_neg]
    simp [h]
  refine ⟨fun hp => ?_, hexp m, hchar m, ?_, rfl⟩
  · unfold expireOne
    rw [hp]
    simp only [beq_self_eq_true, Bool.true_and]
    split
    · rename_i hcond
      simp only [Bool.or_eq_true, decide_eq_true_eq, ge_iff_le, gt_iff_lt] at hcond
      exact iff_of_true rfl (by omega)
    · rename_i hcond
      simp only [Bool.or_eq_true, decide_eq_true_eq, ge_iff_le, gt_iff_lt, not_or] at hcond
      constructor
      · intro h
        rw [hp] at h
        exact absurd h (by simp)
      · intro h
        exact absurd h (by omega)
  · rcases hchar m with h | h
    · exact hexp _ h
    · rw [h]
      exact h

/-- Witness for C4: the pending match created at minute 0 checked at minute
3000 (48 hours plus 2 hours), and a no-op re-check of an expired match. -/
theorem checkExpiration_spec_witness :
    ((expireOne 3000 pendingBackendMatch).status = .expired ↔
      (pendingBackendMatch.createdAt + 48 * 60 ≤ 3000 ∨
        pendingBackendMatch.startAt ≤ 3000 + 2 * 60 ∨ pendingBackendMatch.startAt < 3000)) ∧
    expireOne 3000 expiredBackendMatch = expiredBackendMatch :=
  ⟨(checkExpiration_spec 3000 pendingBackendMatch []).1 rfl,
   (checkExpiration_spec 3000 expiredBackendMatch []).2.1 rfl⟩

/-- Counterexample to C2 as stated: `respondToChallenge` applied to a Match
already in the terminal status `declined` silently overwrites it to
`confirmed` instead of failing with `InvalidTransitionError` and leaving the
status unchanged. -/
theorem respondToChallenge_counterexample :
    declinedMatch.status = .declined ∧
    (respondToChallenge declinedStore "m3" true).allMatches =
      [{ declinedMatch with status := .confirmed }] := by
  exact ⟨rfl, by decide⟩

/-- C2 amended: `respondToChallenge` and `cancelMatch` update the matching
Match unconditionally — whatever its current status, Accept sets `confirmed`,
Decline sets `declined` and Cancel sets `canceled` (recording the reason and
the canceling user); no `InvalidTransitionError` exists and terminal statuses
are silently overwritten. -/
theorem transitions_overwrite (s : StoreState) (mid : String) (accept : Bool)
    (reason : Option String) (m : Match) (hm : m ∈ s.allMatches) (hid : m.id = mid) :
    ({ m with status := if accept then .confirmed else .declined } ∈
      (respondToChallenge s mid accept).allMatches) ∧
    ({ m with
        status := .canceled,
        cancelReason := reason,
        canceledBy := canceledByOf s } ∈ (cancelMatch s mid reason).allMatches) := by
  constructor
  · exact List.mem_map.mpr ⟨m, hm, by simp [hid]⟩
  · exact List.mem_map.mpr ⟨m, hm, by simp [hid]⟩

/-- Witness for C2 amended at the declined match. -/
theorem transitions_overwrite_witness :
    ({ declinedMatch with status := if true then .confirmed else .declined } ∈
      (respondToChallenge declinedStore "m3" true).allMatches) ∧
    ({ declinedMatch with
        status := .canceled,
        cancelReason := none,
        canceledBy := canceledByOf declinedStore } ∈
      (cancelMatch declinedStore "m3" none).allMatches) :=
  transitions_overwrite declinedStore "m3" true none declinedMatch (by decide) rfl

/-- Counterexample to C6 as stated: deleting pattern "rp1" also removes the
block dated 2020-01-01 — a start in the past of every execution date of this
repository (the operation consults no clock at all) — though the claim says
past blocks are immutable. -/
theorem deleteRecurringPattern_counterexample :
    pastBlock ∈ pastStore.availability ∧
    pastBlock.recurringPatternId = some "rp1" ∧
    pastBlock.date = "2020-01-01" ∧
    (deleteRecurringPattern pastStore "rp1").availability = [] := by
  exact ⟨by decide, rfl, rfl, by decide⟩

/-- C6 amended: deleting a RecurringPattern removes exactly the
AvailabilityBlocks carrying that pattern's back-reference, regardless of
whether their start is past or future; blocks without the reference — manual
blocks included — survive unchanged, and nothing is added. -/
theorem deleteRecurringPattern_spec (s : StoreState) (pid : String) :
    (∀ a ∈ s.availability, a.recurringPatternId ≠ some pid →
      a ∈ (deleteRecurringPattern s pid).availability) ∧
    (∀ a ∈ (deleteRecurringPattern s pid).availability,
      a ∈ s.availability ∧ a.recurringPatternId ≠ some pid) := by
  constructor
  · intro a ha hne
    simp only [deleteRecurringPattern, List.mem_filter, bne_iff_ne, ne_eq, decide_not]
    exact ⟨ha, by simpa using hne⟩
  · intro a ha
    simp only [deleteRecurringPattern, List.mem_filter, bne_iff_ne, ne_eq, decide_not] at ha
    exact ⟨ha.1, by simpa using ha.2⟩

/-- Witness for C6 amended: deleting an unreferenced pattern id keeps the
2020 block. -/
theorem deleteRecurringPattern_spec_witness :
    pastBlock ∈ (deleteRecurringPattern pastStore "zzz").availability :=
  (deleteRecurringPattern_spec pastStore "zzz").1 pastBlock (by decide) (by decide)

/-- Counterexample to C7 as stated: adding a slot whose (owner, start)
already exists creates a duplicate — afterwards two distinct stored slots
share owner "1", date 2025-11-20 and start 18:00. -/
theorem addAvailability_counterexample :
    dupSlot1.userId = dupSlot2.userId ∧
    dupSlot1.date = dupSlot2.date ∧
    dupSlot1.startTime = dupSlot2.startTime ∧
    dupSlot1 ≠ dupSlot2 ∧
    ((addAvailability dupStore [dupSlot2]).availability.filter
      (fun x => x.userId == "1" && x.date == "2025-11-20" &&
        x.startTime == (⟨18, 0⟩ : HM))).length = 2 := by
  exact ⟨rfl, rfl, rfl, by decide, by decide⟩

/-- C7 amended: `getEndTime` does yield end = start + 30 minutes for the
editor's grid times (minutes 0 or 30), but `addAvailability` enforces no
uniqueness: it appends the given slots as they are, so adding a slot whose
(owner, date, start) already exists leaves at least two stored slots with
that key. -/
theorem addAvailability_spec (s : StoreState) (a b : AvailabilitySlot)
    (ha : a ∈ s.availability) (hu : b.userId = a.userId) (hd : b.date = a.date)
    (hs : b.startTime = a.startTime) (t : HM) (ht : t.m = 0 ∨ t.m = 30) :
    2 ≤ ((addAvailability s [b]).availability.filter
      (fun x => x.userId == a.userId && x.date == a.date &&
        x.startTime == a.startTime)).length ∧
    timeToMinutes (getEndTime t) = timeToMinutes t + 30 := by
  constructor
  · simp only [addAvailability, List.filter_append, List.length_append]
    have h1 : a ∈ s.availability.filter
        (fun x => x.userId == a.userId && x.date == a.date && x.startTime == a.startTime) :=
      List.mem_filter.mpr ⟨ha, by simp⟩
    have l1 : 0 < (s.availability.filter
        (fun x => x.userId == a.userId && x.date == a.date &&
          x.startTime == a.startTime)).length :=
      List.length_pos_of_mem h1
    have l2 : ([b].filter
        (fun x => x.userId == a.userId && x.date == a.date &&
          x.startTime == a.startTime)).length = 1 := by
      simp [List.filter, hu, hd, hs]
    omega
  · rcases ht with h | h <;> simp [getEndTime, timeToMinutes, h] <;> omega

/-- Witness for C7 amended at the duplicated 18:00 slot and grid time 18:00. -/
theorem addAvailability_spec_witness :
    2 ≤ ((addAvailability dupStore [dupSlot2]).availability.filter
      (fun x => x.userId == dupSlot1.userId && x.date == dupSlot1.date &&
        x.startTime == dupSlot1.startTime)).length ∧
    timeToMinutes (getEndTime ⟨18, 0⟩) = timeToMinutes ⟨18, 0⟩ + 30 :=
  addAvailability_spec dupStore dupSlot1 dupSlot2 (by decide) rfl rfl rfl ⟨18, 0⟩ (Or.inl rfl)

/-- Counterexample to C1 as stated: creating A's challenge to B at
18:00–19:00 succeeds although responder B has an overlapping pending match
(whereas the claim says a conflict belonging only to the responder also
blocks creation), and the same submission fails against an expired match of
initiator A (whereas the claim says expired matches never block). -/
theorem submitChallenge_counterexample :
    (submitChallenge respStore "n1" "t1" "A" "B" "2025-11-20" ⟨18, 0⟩ 60).isSome = true ∧
    respOnlyMatch.challengerId = "B" ∧ respOnlyMatch.opponentId ≠ "A" ∧
    respOnlyMatch.status = .pending ∧ respOnlyMatch.date = "2025-11-20" ∧
    timeToMinutes respOnlyMatch.startTime < timeToMinutes ⟨18, 0⟩ + 60 ∧
    timeToMinutes ⟨18, 0⟩ <
      timeToMinutes respOnlyMatch.startTime + respOnlyMatch.duration ∧
    submitChallenge expStore "n1" "t1" "A" "B" "2025-11-20" ⟨18, 0⟩ 60 = none ∧
    expiredMatch.status = .expired := by
  refine ⟨by decide, rfl, by decide, rfl, rfl, by decide, by decide, by decide, rfl⟩

/-- C1 amended: challenge creation fails if and only if the proposed window
overlaps an existing same-date Match of the initiator alone (the responder's
matches are not consulted) whose status is neither declined nor canceled —
so expired matches also block — under the overlap test
existingStart < newEnd AND existingEnd > newStart. -/
theorem submitChallenge_fails_iff (s : StoreState)
    (newId createdAt activeUserId opponentId date : String) (t : HM) (dur : Nat)
    (hdur : 0 < dur) (hms : ∀ m ∈ s.allMatches, 0 < m.duration) :
    submitChallenge s newId createdAt activeUserId opponentId date t dur = none ↔
      ∃ m ∈ s.allMatches,
        (m.challengerId = activeUserId ∨ m.opponentId = activeUserId) ∧
        m.status ≠ .declined ∧ m.status ≠ .canceled ∧ m.date = date ∧
        timeToMinutes m.startTime < timeToMinutes t + dur ∧
        timeToMinutes t < timeToMinutes m.startTime + m.duration := by
  have step1 : submitChallenge s newId createdAt activeUserId opponentId date t dur = none ↔
      hasConflict activeUserId date t dur s.allMatches = true := by
    by_cases hc : hasConflict activeUserId date t dur s.allMatches = true
    · simp [submitChallenge, hc]
    · simp [submitChallenge, hc]
  rw [step1]
  simp only [hasConflict, List.any_eq_true, List.mem_filter, Bool.and_eq_true,
    Bool.or_eq_true, Bool.not_eq_true', beq_iff_eq, beq_eq_false_iff_ne, ne_eq,
    decide_eq_true_eq, timeToMinutes_calculateEndTime]
  constructor
  · rintro ⟨m, ⟨hm, ⟨⟨hwho, hd1⟩, hd2⟩, hdate⟩, hover⟩
    have hmd := hms m hm
    exact ⟨m, hm, hwho, hd1, hd2, hdate, by omega⟩
  · rintro ⟨m, hm, hwho, hd1, hd2, hdate, ho1, ho2⟩
    have hmd := hms m hm
    exact ⟨m, ⟨hm, ⟨⟨hwho, hd1⟩, hd2⟩, hdate⟩, by omega⟩

/-- Witness for C1 amended: against the initiator's expired 18:00–19:00
match, the 18:00–19:00 submission fails and the characterizing match exists. -/
theorem submitChallenge_fails_iff_witness :
    submitChallenge expStore "n1" "t1" "A" "B" "2025-11-20" ⟨18, 0⟩ 60 = none ↔
      ∃ m ∈ expStore.allMatches,
        (m.challengerId = "A" ∨ m.opponentId = "A") ∧
        m.status ≠ .declined ∧ m.status ≠ .canceled ∧ m.date = "2025-11-20" ∧
        timeToMinutes m.startTime < timeToMinutes ⟨18, 0⟩ + 60 ∧
        timeToMinutes ⟨18, 0⟩ < timeToMinutes m.startTime + m.duration :=
  submitChallenge_fails_iff expStore "n1" "t1" "A" "B" "2025-11-20" ⟨18, 0⟩ 60
    (by decide) (by decide)

theorem overlapPair_covers (s1 s2 : AvailabilitySlot) (w : OverlapWindow)
    (h : overlapPair s1 s2 = some w) :
    w.date = s1.date ∧ w.date = s2.date ∧
    timeToMinutes s1.startTime ≤ timeToMinutes w.startTime ∧
    timeToMinutes w.endTime ≤ timeToMinutes s1.endTime ∧
    timeToMinutes s2.startTime ≤ timeToMinutes w.startTime ∧
    timeToMinutes w.endTime ≤ timeToMinutes s2.endTime := by
  simp only [overlapPair] at h
  split at h
  · rename_i hdd
    split at h
    · rename_i hlt
      obtain rfl := (Option.some.inj h).symm
      refine ⟨rfl, (beq_iff_eq.mp hdd), ?_, ?_, ?_, ?_⟩ <;>
        simp only [timeToMinutes_minutesToTime]
      · exact Nat.le_max_left _ _
      · exact Nat.min_le_left _ _
      · exact Nat.le_max_right _ _
      · exact Nat.min_le_right _ _
    · exact absurd h (by simp)
  · exact absurd h (by simp)

/-- Counterexample to C3 as stated: on concrete data the overlap computation
returns the window 18:00–18:30 of 2025-11-20 for the pair (user "1", user
"2") even though user "1" has a pending Match covering that window (matches
are not an input of `calculateOverlap` at all) and user "1" is on vacation
(only the candidate opponents are filtered by status, never the requesting
user). -/
theorem calculateOverlap_counterexample :
    (opponentsWithOverlap "1" vacationUsers sharedAvailability).map
        (fun e => (e.opponent.id, e.sharedSlots)) =
      [("2", [{ date := "2025-11-20", startTime := ⟨18, 0⟩, endTime := ⟨18, 30⟩ }])] ∧
    coveringMatch.challengerId = "1" ∧ coveringMatch.status = .pending ∧
    coveringMatch.date = "2025-11-20" ∧
    timeToMinutes coveringMatch.startTime ≤ timeToMinutes ⟨18, 0⟩ ∧
    timeToMinutes ⟨18, 30⟩ ≤
      timeToMinutes coveringMatch.startTime + coveringMatch.duration ∧
    vacationUsers.map User.status = [.vacation, .active] := by
  refine ⟨by decide, rfl, rfl, rfl, by decide, by decide, by decide⟩

/-- C3 amended: every window returned by the overlap computation is covered
by an AvailabilityBlock of each of the two users on the window's date, and
every listed opponent is a distinct user with status active; pending or
confirmed Matches are not consulted, and the requesting user's own status is
not checked. -/
theorem opponentsWithOverlap_spec (activeUserId : String) (users : List User)
    (availability : List AvailabilitySlot) (e : OpponentOverlap)
    (he : e ∈ opponentsWithOverlap activeUserId users availability) :
    e.opponent.status = .active ∧ e.opponent.id ≠ activeUserId ∧
    ∀ w ∈ e.sharedSlots,
      (∃ s1 ∈ availability, s1.userId = activeUserId ∧ s1.date = w.date ∧
        timeToMinutes s1.startTime ≤ timeToMinutes w.startTime ∧
        timeToMinutes w.endTime ≤ timeToMinutes s1.endTime) ∧
      (∃ s2 ∈ availability, s2.userId = e.opponent.id ∧ s2.date = w.date ∧
        timeToMinutes s2.startTime ≤ timeToMinutes w.startTime ∧
        timeToMinutes w.endTime ≤ timeToMinutes s2.endTime) := by
  simp only [opponentsWithOverlap, List.mem_map] at he
  obtain ⟨o, ho, rfl⟩ := he
  simp only [activeOpponents, List.mem_filter, Bool.and_eq_true, bne_iff_ne, ne_eq,
    beq_iff_eq] at ho
  refine ⟨ho.2.2, ho.2.1, ?_⟩
  intro w hw
  simp only [calculateOverlapSlots, List.mem_flatMap, List.mem_filterMap,
    List.mem_filter, beq_iff_eq] at hw
  obtain ⟨s1, ⟨hs1m, hs1u⟩, s2, ⟨hs2m, hs2u⟩, hpair⟩ := hw
  obtain ⟨hwd1, hwd2, hb1, hb2, hb3, hb4⟩ := overlapPair_covers s1 s2 w hpair
  exact ⟨⟨s1, hs1m, hs1u, hwd1.symm, hb1, hb2⟩, ⟨s2, hs2m, hs2u, hwd2.symm, hb3, hb4⟩⟩

/-- Witness for C3 amended at the concrete entry for user "2". -/
theorem opponentsWithOverlap_spec_witness :
    aliceEntry.opponent.status = .active ∧ aliceEntry.opponent.id ≠ "1" ∧
    ∀ w ∈ aliceEntry.sharedSlots,
      (∃ s1 ∈ sharedAvailability, s1.userId = "1" ∧ s1.date = w.date ∧
        timeToMinutes s1.startTime ≤ timeToMinutes w.startTime ∧
        timeToMinutes w.endTime ≤ timeToMinutes s1.endTime) ∧
      (∃ s2 ∈ sharedAvailability, s2.userId = aliceEntry.opponent.id ∧
        s2.date = w.date ∧
        timeToMinutes s2.startTime ≤ timeToMinutes w.startTime ∧
        timeToMinutes w.endTime ≤ timeToMinutes s2.endTime) :=
  opponentsWithOverlap_spec "1" vacationUsers sharedAvailability aliceEntry (by decide)

theorem minutesToTime_timeToMinutes (t : HM) (h : t.m < 60) :
    minutesToTime (timeToMinutes t) = t := by
  cases t with
  | mk a b =>
    simp only [minutesToTime, timeToMinutes, HM.mk.injEq]
    simp only at h
    omega

theorem timeToMinutes_inj (t1 t2 : HM) (h1 : t1.m < 60) (h2 : t2.m < 60)
    (h : timeToMinutes t1 = timeToMinutes t2) : t1 = t2 := by
  rw [← minutesToTime_timeToMinutes t1 h1, ← minutesToTime_timeToMinutes t2 h2, h]

theorem overlapPair_eq_exactPair (s1 s2 : AvailabilitySlot)
    (h1 : onGrid s1) (h2 : onGrid s2) : overlapPair s1 s2 = exactPair s1 s2 := by
  obtain ⟨hm1, he1, hg1, hspan1⟩ := h1
  obtain ⟨hm2, he2, hg2, hspan2⟩ := h2
  by_cases hd : s1.date = s2.date
  · by_cases hst : timeToMinutes s1.startTime = timeToMinutes s2.startTime
    · have hSTeq : s1.startTime = s2.startTime := timeToMinutes_inj _ _ hm1 hm2 hst
      have hETeq : s1.endTime = s2.endTime :=
        timeToMinutes_inj _ _ he1 he2 (by omega)
      have hlt : timeToMinutes s2.startTime < timeToMinutes s2.endTime := by omega
      simp [overlapPair, exactPair, hd, hSTeq, hETeq, hlt,
        minutesToTime_timeToMinutes _ hm2, minutesToTime_timeToMinutes _ he2]
    · have hSTne : s1.startTime ≠ s2.startTime := fun hEq => hst (by rw [hEq])
      have hnover : ¬ (max (timeToMinutes s1.startTime) (timeToMinutes s2.startTime) <
          min (timeToMinutes s1.endTime) (timeToMinutes s2.endTime)) := by
        omega
      simp only [overlapPair, exactPair]
      rw [if_pos (beq_iff_eq.mpr hd), if_neg (by simpa using hnover),
        if_neg (by simp [hSTne])]
  · simp only [overlapPair, exactPair]
    rw [if_neg (by simp [hd]), if_neg (by simp [hd])]

theorem flatMap_filterMap_congr {α β : Type} (l1 l2 : List α) (f g : α → α → Option β)
    (h : ∀ a ∈ l1, ∀ b ∈ l2, f a b = g a b) :
    (l1.flatMap fun a => l2.filterMap (f a)) = l1.flatMap fun a => l2.filterMap (g a) := by
  induction l1 with
  | nil => rfl
  | cons a l ih =>
    simp only [List.flatMap_cons]
    rw [List.filterMap_congr (fun b hb => h a (by simp) b hb),
      ih (fun x hx b hb => h x (by simp [hx]) b hb)]

/-- Counterexample to C8 as stated: on the off-grid shapes present in the
store's own seed data (user "1" 18:00–20:00, user "2" 18:30–21:00) the
computation returns the window 18:30–20:00, which exact (start,end)-equality
set intersection does not produce — the code performs general interval
arithmetic, not exact-equality intersection. -/
theorem exactIntersect_counterexample :
    calculateOverlapSlots "1" "2" offGridAvailability =
      [{ date := "2025-11-20", startTime := ⟨18, 30⟩, endTime := ⟨20, 0⟩ }] ∧
    exactIntersect "1" "2" offGridAvailability = [] := by
  exact ⟨by decide, by decide⟩

/-- C8 amended: the overlap computation performs general interval
intersection (later start, earlier end); restricted to blocks on the fixed
30-minute grid its output coincides with plain set intersection of the two
users' block sets by exact (start,end) equality. -/
theorem calculateOverlap_refines_exactIntersect (userId1 userId2 : String)
    (availability : List AvailabilitySlot) (hg : ∀ s ∈ availability, onGrid s) :
    calculateOverlapSlots userId1 userId2 availability =
      exactIntersect userId1 userId2 availability := by
  unfold calculateOverlapSlots exactIntersect
  refine flatMap_filterMap_congr _ _ _ _ (fun a ha b hb => ?_)
  exact overlapPair_eq_exactPair a b
    (hg a (List.mem_of_mem_filter ha)) (hg b (List.mem_of_mem_filter hb))

/-- Witness for C8 amended on three grid-aligned 30-minute blocks. -/
theorem calculateOverlap_refines_exactIntersect_witness :
    calculateOverlapSlots "1" "2" gridAvailability =
      exactIntersect "1" "2" gridAvailability :=
  calculateOverlap_refines_exactIntersect "1" "2" gridAvailability (by decide)

theorem overlapPair_comm (s1 s2 : AvailabilitySlot) :
    overlapPair s1 s2 = overlapPair s2 s1 := by
  unfold overlapPair
  by_cases hd : s1.date = s2.date
  · rw [if_pos (beq_iff_eq.mpr hd), if_pos (beq_iff_eq.mpr hd.symm)]
    simp only [hd, Nat.max_comm (timeToMinutes s2.startTime),
      Nat.min_comm (timeToMinutes s2.endTime)]
  · rw [if_neg (by simp [hd]), if_neg (by simp [Ne.symm hd])]

theorem filterMap_eq_flatMap {α β : Type} (l : List α) (f : α → Option β) :
    l.filterMap f = l.flatMap fun a => (f a).toList := by
  induction l with
  | nil => rfl
  | cons a l ih =>
    cases hfa : f a <;> simp [List.filterMap_cons, hfa, ih]

/-- C10: the overlap computation is commutative in its two user arguments —
swapping them yields the same total overlap hours and the same multiset of
shared (date, startTime, endTime) windows. -/
theorem calculateOverlap_comm (userId1 userId2 : String)
    (availability : List AvailabilitySlot) :
    calculateOverlapHours userId1 userId2 availability =
      calculateOverlapHours userId2 userId1 availability ∧
    (↑(calculateOverlapSlots userId1 userId2 availability) : Multiset OverlapWindow) =
      ↑(calculateOverlapSlots userId2 userId1 availability) := by
  have key : (↑(calculateOverlapSlots userId1 userId2 availability) :
      Multiset OverlapWindow) = ↑(calculateOverlapSlots userId2 userId1 availability) := by
    unfold calculateOverlapSlots
    have expand : ∀ (bigA bigB : List AvailabilitySlot),
        (↑(bigA.flatMap fun a => bigB.filterMap fun b => overlapPair a b) :
          Multiset OverlapWindow) =
          (↑bigA : Multiset AvailabilitySlot).bind fun a =>
            (↑bigB : Multiset AvailabilitySlot).bind fun b =>
              ↑((overlapPair a b).toList) := by
      intro bigA bigB
      have h1 : (fun a => bigB.filterMap fun b => overlapPair a b) =
          fun a => bigB.flatMap fun b => ((overlapPair a b).toList) :=
        funext fun a => filterMap_eq_flatMap bigB _
      rw [h1, ← Multiset.coe_bind]
      refine congrArg _ (funext fun a => ?_)
      rw [← Multiset.coe_bind]
    rw [expand, expand, Multiset.bind_bind]
    refine congrArg _ (funext fun b => congrArg _ (funext fun a => ?_))
    rw [overlapPair_comm]
  refine ⟨?_, key⟩
  have hperm : (calculateOverlapSlots userId1 userId2 availability).Perm
      (calculateOverlapSlots userId2 userId1 availability) := Multiset.coe_eq_coe.mp key
  unfold calculateOverlapHours calculateOverlapMinutes
  rw [(hperm.map windowMinutes).sum_eq]

end Pickleball
